import Mathlib

/-!
Shallow embedding of the `k-netix` client-side code (slider3D.js, index.js and
the unnamed card-toggler variant) together with proofs about the behaviour of
the `Slider3D` carousel and the concept-card toggler.

JavaScript numeric conventions used throughout the embedding:

* the JS remainder operator on integers truncates toward zero, which is
  `Int.tmod`;
* all quantities manipulated by the slider are mathematical integers or exact
  half-integers, so the embedding works in `Int` (half-integers are carried
  scaled by 2 where they appear, exactly).
-/

namespace KNetix

/-- JS helper `mod` from slider3D.js line 7: `(n, m) => ((n % m) + m) % m`,
with the JS remainder being the truncated remainder `Int.tmod`. -/
def jsMod (n m : Int) : Int := ((Int.tmod n m) + m).tmod m

/-- Truncated remainder by a positive divisor lies strictly between `-b` and `b`
(for any sign of the dividend). -/
theorem tmod_bounds (a : Int) {b : Int} (hb : 0 < b) :
    -b < Int.tmod a b ∧ Int.tmod a b < b := by
  obtain ⟨n, rfl⟩ : ∃ n : Nat, b = Int.ofNat n := ⟨b.toNat, (Int.toNat_of_nonneg hb.le).symm⟩
  have hb' : 0 < n := by
    simp only [Int.ofNat_eq_natCast] at hb
    exact_mod_cast hb
  cases a with
  | ofNat m =>
      have hdef : Int.tmod (Int.ofNat m) (Int.ofNat n) = Int.ofNat (m % n) := rfl
      rw [hdef]
      have hlt : m % n < n := Nat.mod_lt _ hb'
      simp only [Int.ofNat_eq_natCast]
      omega
  | negSucc m =>
      have hdef : Int.tmod (Int.negSucc m) (Int.ofNat n) = -Int.ofNat ((m + 1) % n) := rfl
      rw [hdef]
      have hlt : (m + 1) % n < n := Nat.mod_lt _ hb'
      simp only [Int.ofNat_eq_natCast]
      omega

/-- For a positive divisor, the JS `mod` helper computes the non-negative
(Euclidean) remainder. -/
theorem jsMod_eq_emod (n : Int) {m : Int} (hm : 0 < m) : jsMod n m = n % m := by
  unfold jsMod
  have hb := tmod_bounds n hm
  have hnn : 0 ≤ Int.tmod n m + m := by omega
  rw [Int.tmod_eq_emod hnn hm.le]
  have hrw : Int.tmod n m + m = n + m * (1 - n.tdiv m) := by
    rw [Int.tmod_def]; ring
  rw [hrw, Int.add_mul_emod_self_left]

/-- Range of `jsMod` for a positive divisor. -/
theorem jsMod_range (n : Int) {m : Int} (hm : 0 < m) :
    0 ≤ jsMod n m ∧ jsMod n m < m := by
  rw [jsMod_eq_emod n hm]
  exact ⟨Int.emod_nonneg n (by omega), Int.emod_lt_of_pos n hm⟩

/-- Method `_normalize` from slider3D.js lines 165-170.  The source computes
`mod(number + halfItems, totalItems) - halfItems` with the (half-integer when
`totalItems` is odd) value `halfItems = totalItems / 2`; the same computation
is carried out here scaled by 2, which is exact because the JS remainder on
exact half-integers equals the scaled integer `tmod`, and the final division
by 2 is exact since the result is always an integer. -/
def normalize (total : Nat) (number : Int) : Int :=
  (jsMod (2 * number + total) (2 * total) - total) / 2

/-- Closed form of `normalize`: it subtracts a whole number of turns. -/
theorem normalize_eq (total : Nat) (h : 0 < total) (number : Int) :
    normalize total number
      = number - total * ((2 * number + total) / (2 * total)) := by
  unfold normalize
  have h2 : (0 : Int) < 2 * (total : Int) := by positivity
  rw [jsMod_eq_emod _ h2, Int.emod_def]
  have hx : 2 * number + (total : Int)
        - 2 * (total : Int) * ((2 * number + (total : Int)) / (2 * (total : Int)))
        - (total : Int)
      = 2 * (number - (total : Int) * ((2 * number + (total : Int)) / (2 * (total : Int)))) := by
    ring
  rw [hx]
  exact Int.mul_ediv_cancel_left _ (by norm_num)

/-- Doubling `normalize` recovers the centered remainder exactly. -/
theorem normalize_two_mul (total : Nat) (h : 0 < total) (number : Int) :
    2 * normalize total number
      = (2 * number + total) % (2 * total) - total := by
  rw [normalize_eq total h number, Int.emod_def]
  ring

/-- Function `normalize` lands in the half-open centered interval `[-N/2, N/2)`,
expressed without fractions by doubling. -/
theorem normalize_range (total : Nat) (h : 0 < total) (number : Int) :
    -(total : Int) ≤ 2 * normalize total number ∧
      2 * normalize total number < total := by
  rw [normalize_two_mul total h number]
  have h2 : (0 : Int) < 2 * (total : Int) := by positivity
  have h1 := Int.emod_nonneg (2 * number + total) (by omega : (2 : Int) * (total : Int) ≠ 0)
  have h3 := Int.emod_lt_of_pos (2 * number + total) h2
  constructor <;> linarith

/-- Function `normalize` preserves the residue class modulo the item count. -/
theorem normalize_emod (total : Nat) (h : 0 < total) (number : Int) :
    (normalize total number) % (total : Int) = number % (total : Int) := by
  rw [normalize_eq total h number, sub_eq_add_neg]
  exact Int.add_neg_mul_emod_self_left

/-- For three or more items a single step forward normalizes to itself. -/
theorem normalize_one_of_three_le (total : Nat) (h : 3 ≤ total) :
    normalize total 1 = 1 := by
  rw [normalize_eq total (by omega) 1]
  have hq : (2 * 1 + (total : Int)) / (2 * (total : Int)) = 0 := by
    apply Int.ediv_eq_zero_of_lt
    · omega
    · omega
  rw [hq]
  ring

/-- With exactly two items a single step forward normalizes to a step back. -/
theorem normalize_one_two : normalize 2 1 = -1 := by decide

/-- With a single item every step normalizes to zero. -/
theorem normalize_one_one : normalize 1 1 = 0 := by decide

/-- One slider item (a DOM element of class `.item`), carrying the three CSS
marker classes that `update` manages. -/
structure Item where
  inView : Bool
  nextItem : Bool
  prevItem : Bool
deriving DecidableEq

/-- State of one `Slider3D` instance: the static item/indicator snapshots taken
at construction, the signed integer `index`, the published `--view-index`
style property, and the touch-tracking scratch fields. -/
structure Slider where
  items : List Item
  indicators : List Bool
  index : Int
  styleViewIndex : String
  touchStartX : Option Int
  touchCurrentX : Int
  swipeThreshold : Int
deriving DecidableEq

/-- Apply `f` to the element at position `i`, a no-op when `i` is out of
range (mirrors the optional-chaining `this.items[i]?.classList.add`). -/
def modifyAt : List α → Nat → (α → α) → List α
  | [], _, _ => []
  | a :: as, 0, f => f a :: as
  | a :: as, n + 1, f => a :: modifyAt as n f

/-- Clearing pass of `update` (line 212): removing all three classes from every
item leaves every item in the all-false state. -/
def clearItems (l : List Item) : List Item :=
  l.map (fun _ => ⟨false, false, false⟩)

/-- Flag-setting passes of `update` (lines 212-215): clear every item, then
add `in-view` / `next-item` / `previous-item` at the three positions. -/
def applyFlags (l : List Item) (cur nxt prv : Nat) : List Item :=
  modifyAt
    (modifyAt
      (modifyAt (clearItems l) cur (fun it => { it with inView := true }))
      nxt (fun it => { it with nextItem := true }))
    prv (fun it => { it with prevItem := true })

/-- Rewrap bound `total * Math.ceil(100 / total)` from update (line 208),
with the ceiling written in `Nat` arithmetic. -/
def bound (total : Nat) : Nat := total * ((100 + total - 1) / total)

/-- New value of `index` computed by update (line 208): collapse to the
canonical representative when the magnitude exceeds the bound. -/
def updIndex (s : Slider) : Int :=
  if (bound s.items.length : Int) < |s.index| then jsMod s.index s.items.length
  else s.index

/-- Method `update` from slider3D.js lines 200-219.  `current`, `next` and
`previous` are computed from the incoming `index` (before the rewrap), the
rewrapped index is published to `--view-index`, and the item and indicator
classes are cleared and re-set. -/
def update (s : Slider) : Slider :=
  { s with
    index := updIndex s
    styleViewIndex := toString (updIndex s)
    items := applyFlags s.items
      (jsMod s.index s.items.length).toNat
      (jsMod (s.index + 1) s.items.length).toNat
      (jsMod (s.index - 1) s.items.length).toNat
    indicators :=
      modifyAt (s.indicators.map (fun _ => false))
        (jsMod s.index s.items.length).toNat (fun _ => true) }

/-- Method `goTo` from slider3D.js lines 190-195. -/
def goTo (s : Slider) (target : Int) : Slider :=
  update { s with index := s.index + normalize s.items.length (target - s.index) }

/-- Method `next` from slider3D.js lines 175-177. -/
def next (s : Slider) : Slider := goTo s (s.index + 1)

/-- Method `prev` from slider3D.js lines 182-184. -/
def prev (s : Slider) : Slider := goTo s (s.index - 1)

/-- Touch-start handler (lines 110-115): a single-touch event records the
start and current X coordinates. -/
def handleTouchStart (s : Slider) (touches : List Int) : Slider :=
  match touches with
  | [x] => { s with touchStartX := some x, touchCurrentX := x }
  | _ => s

/-- Touch-move handler (lines 122-126): with a recorded start and a single
touch, the current X coordinate is updated. -/
def handleTouchMove (s : Slider) (touches : List Int) : Slider :=
  match s.touchStartX, touches with
  | some _, [x] => { s with touchCurrentX := x }
  | _, _ => s

/-- Touch-end handler (lines 133-148): with a recorded start, compare the
swipe distance against the threshold, navigate at most once, and clear the
tracking fields. -/
def handleTouchEnd (s : Slider) : Slider :=
  match s.touchStartX with
  | none => s
  | some startX =>
    let deltaX := s.touchCurrentX - startX
    let s' := if s.swipeThreshold < |deltaX| then
        (if 0 < deltaX then prev s else next s)
      else s
    { s' with touchStartX := none, touchCurrentX := 0 }

/-- Touch-cancel handler (lines 155-158): clear the tracking fields. -/
def handleTouchCancel (s : Slider) : Slider :=
  { s with touchStartX := none, touchCurrentX := 0 }

/-- Slider state assembled by the constructor (lines 41-58) from the item and
indicator snapshots, before and including the initial `update` call. -/
def mkSlider (items0 : List Item) (inds0 : List Bool) : Slider :=
  update
    { items := items0
      indicators := inds0
      index := 0
      styleViewIndex := ""
      touchStartX := none
      touchCurrentX := 0
      swipeThreshold := 30 }

/-- States reachable from a freshly constructed slider by the public
navigation operations. -/
inductive Reachable (items0 : List Item) (inds0 : List Bool) : Slider → Prop where
  | init : Reachable items0 inds0 (mkSlider items0 inds0)
  | step_next {s : Slider} : Reachable items0 inds0 s → Reachable items0 inds0 (next s)
  | step_prev {s : Slider} : Reachable items0 inds0 s → Reachable items0 inds0 (prev s)
  | step_goTo {s : Slider} (t : Int) :
      Reachable items0 inds0 s → Reachable items0 inds0 (goTo s t)

/-- Helper `modifyAt` preserves the length of the list. -/
theorem modifyAt_length (l : List α) (i : Nat) (f : α → α) :
    (modifyAt l i f).length = l.length := by
  induction l generalizing i with
  | nil => rfl
  | cons a as ih =>
      cases i with
      | zero => rfl
      | succ n => simp [modifyAt, ih]

/-- Helper `modifyAt` with the identity function changes nothing. -/
theorem modifyAt_id (l : List α) (i : Nat) : modifyAt l i (fun a => a) = l := by
  induction l generalizing i with
  | nil => rfl
  | cons a as ih =>
      cases i with
      | zero => rfl
      | succ n => simp [modifyAt, ih]

/-- Mapping commutes with `modifyAt` when the functions commute. -/
theorem map_modifyAt (g : α → β) (f : α → α) (g' : β → β)
    (hcomm : ∀ a, g (f a) = g' (g a)) (l : List α) (i : Nat) :
    (modifyAt l i f).map g = modifyAt (l.map g) i g' := by
  induction l generalizing i with
  | nil => rfl
  | cons a as ih =>
      cases i with
      | zero => simp [modifyAt, hcomm]
      | succ n => simp [modifyAt, ih]

/-- Length is preserved by the clearing pass. -/
theorem clearItems_length (l : List Item) : (clearItems l).length = l.length := by
  simp [clearItems]

/-- Length is preserved by the flag-setting passes. -/
theorem applyFlags_length (l : List Item) (cur nxt prv : Nat) :
    (applyFlags l cur nxt prv).length = l.length := by
  simp [applyFlags, modifyAt_length, clearItems_length]

/-- Method `update` keeps the item snapshot length. -/
theorem update_items_length (s : Slider) : (update s).items.length = s.items.length := by
  simp [update, applyFlags_length]

/-- Method `update` keeps the indicator snapshot length. -/
theorem update_indicators_length (s : Slider) :
    (update s).indicators.length = s.indicators.length := by
  simp [update, modifyAt_length]

/-- Method `goTo` keeps the item snapshot length. -/
theorem goTo_items_length (s : Slider) (t : Int) :
    (goTo s t).items.length = s.items.length := by
  simp [goTo, update_items_length]

/-- The item count never exceeds the rewrap bound. -/
theorem le_bound (total : Nat) (h : 0 < total) : total ≤ bound total := by
  unfold bound
  have h1 : 1 ≤ (100 + total - 1) / total := (Nat.one_le_div_iff h).mpr (by omega)
  calc total = total * 1 := (Nat.mul_one _).symm
    _ ≤ total * ((100 + total - 1) / total) := Nat.mul_le_mul_left _ h1

/-- When the index is within the bound the rewrap leaves it alone. -/
theorem updIndex_of_le (s : Slider) (h : |s.index| ≤ (bound s.items.length : Int)) :
    updIndex s = s.index := by
  unfold updIndex
  rw [if_neg (not_lt.mpr h)]

/-- The rewrap never changes the residue class of the index. -/
theorem updIndex_emod (s : Slider) (h : 0 < s.items.length) :
    updIndex s % (s.items.length : Int) = s.index % (s.items.length : Int) := by
  unfold updIndex
  split_ifs with hc
  · rw [jsMod_eq_emod _ (by exact_mod_cast h : (0 : Int) < s.items.length)]
    exact Int.emod_emod _ _
  · rfl

/-- After the rewrap decision the index magnitude is within the bound. -/
theorem updIndex_abs_le (s : Slider) (h : 0 < s.items.length) :
    |updIndex s| ≤ (bound s.items.length : Int) := by
  unfold updIndex
  split_ifs with hc
  · have hpos : (0 : Int) < s.items.length := by exact_mod_cast h
    have hr := jsMod_range s.index hpos
    have hb : (s.items.length : Int) ≤ (bound s.items.length : Int) := by
      exact_mod_cast le_bound s.items.length h
    rw [abs_of_nonneg hr.1]
    linarith [hr.2]
  · exact not_lt.mp hc

/-- The index field produced by `update` is `updIndex`. -/
theorem update_index_def (s : Slider) : (update s).index = updIndex s := rfl

/-- Method `update` never changes the residue class of the index. -/
theorem update_index_emod (s : Slider) (h : 0 < s.items.length) :
    (update s).index % (s.items.length : Int) = s.index % (s.items.length : Int) :=
  updIndex_emod s h

/-- Boolean mask of the `in-view` class over the item snapshot. -/
def inViewMask (l : List Item) : List Bool := l.map (fun it => it.inView)

/-- Mask with `true` exactly at position `i` (when `i < n`). -/
def oneHot (n i : Nat) : List Bool :=
  modifyAt (List.replicate n false) i (fun _ => true)

/-- The `in-view` mask of the cleared snapshot is all-false. -/
theorem clearItems_mask (l : List Item) :
    (clearItems l).map (fun it => it.inView) = List.replicate l.length false := by
  induction l with
  | nil => rfl
  | cons a as ih =>
      show false :: (clearItems as).map (fun it => it.inView)
        = false :: List.replicate as.length false
      rw [ih]

/-- After a flag-setting pass the `in-view` mask is one-hot at `cur`. -/
theorem inViewMask_applyFlags (l : List Item) (cur nxt prv : Nat) :
    inViewMask (applyFlags l cur nxt prv) = oneHot l.length cur := by
  unfold inViewMask applyFlags oneHot
  rw [map_modifyAt (fun it : Item => it.inView) (fun it : Item => { it with prevItem := true })
      (fun b => b) (fun a => rfl), modifyAt_id]
  rw [map_modifyAt (fun it : Item => it.inView) (fun it : Item => { it with nextItem := true })
      (fun b => b) (fun a => rfl), modifyAt_id]
  rw [map_modifyAt (fun it : Item => it.inView) (fun it : Item => { it with inView := true })
      (fun _ => true) (fun a => rfl)]
  rw [clearItems_mask]

/-- After `update` the `in-view` mask is one-hot at the current position. -/
theorem inViewMask_update (s : Slider) :
    inViewMask (update s).items
      = oneHot s.items.length ((jsMod s.index s.items.length).toNat) :=
  inViewMask_applyFlags s.items _ _ _

/-- After `update`, the `in-view` mask is one-hot at `index mod N`. -/
theorem inViewMask_update_emod (s : Slider) (h : 0 < s.items.length) :
    inViewMask (update s).items
      = oneHot s.items.length ((s.index % (s.items.length : Int)).toNat) := by
  rw [inViewMask_update, jsMod_eq_emod _ (by exact_mod_cast h : (0 : Int) < s.items.length)]

/-- Counting through the `in-view` mask agrees with counting on the items. -/
theorem countP_inView_mask (l : List Item) :
    l.countP (fun it => it.inView) = (inViewMask l).countP (fun b => b) := by
  unfold inViewMask
  rw [List.countP_map]
  rfl

/-- A replicate-false mask has no `true` entries. -/
theorem countP_replicate_false (n : Nat) :
    (List.replicate n false).countP (fun b => b) = 0 := by
  induction n with
  | zero => rfl
  | succ m ih => simp [List.replicate_succ, List.countP_cons, ih]

/-- A one-hot mask inside range has exactly one `true` entry. -/
theorem oneHot_countP (n i : Nat) (h : i < n) :
    (oneHot n i).countP (fun b => b) = 1 := by
  induction n generalizing i with
  | zero => omega
  | succ m ih =>
      cases i with
      | zero =>
          simp [oneHot, List.replicate_succ, modifyAt, List.countP_cons,
            countP_replicate_false]
      | succ j =>
          have hj : j < m := by omega
          have := ih j hj
          simp [oneHot, List.replicate_succ, modifyAt, List.countP_cons] at this ⊢
          exact this

/-- Every reachable state keeps the construction-time item count. -/
theorem reachable_items_length (items0 : List Item) (inds0 : List Bool) {s : Slider}
    (hr : Reachable items0 inds0 s) : s.items.length = items0.length := by
  induction hr with
  | init =>
      show (mkSlider items0 inds0).items.length = items0.length
      unfold mkSlider
      rw [update_items_length]
  | step_next hr ih =>
      rw [show KNetix.next _ = goTo _ _ from rfl, goTo_items_length]
      exact ih
  | step_prev hr ih =>
      rw [show KNetix.prev _ = goTo _ _ from rfl, goTo_items_length]
      exact ih
  | step_goTo t hr ih =>
      rw [goTo_items_length]
      exact ih

/-- Every reachable state is the image of an `update` call on a state with the
construction-time item count. -/
theorem reachable_is_update (items0 : List Item) (inds0 : List Bool) {s : Slider}
    (hr : Reachable items0 inds0 s) :
    ∃ t : Slider, s = update t ∧ t.items.length = items0.length := by
  induction hr with
  | init => exact ⟨_, rfl, rfl⟩
  | step_next hr ih =>
      refine ⟨_, rfl, ?_⟩
      dsimp only
      exact reachable_items_length items0 inds0 hr
  | step_prev hr ih =>
      refine ⟨_, rfl, ?_⟩
      dsimp only
      exact reachable_items_length items0 inds0 hr
  | step_goTo t hr ih =>
      refine ⟨_, rfl, ?_⟩
      dsimp only
      exact reachable_items_length items0 inds0 hr

/-- The clearing pass produces a replicate of the all-false item. -/
theorem clearItems_eq_replicate (l : List Item) :
    clearItems l = List.replicate l.length (⟨false, false, false⟩ : Item) := by
  induction l with
  | nil => rfl
  | cons a as ih =>
      show (⟨false, false, false⟩ : Item) :: clearItems as
        = (⟨false, false, false⟩ : Item) :: List.replicate as.length (⟨false, false, false⟩ : Item)
      rw [ih]

/-- Flag application only depends on the item snapshot through its length. -/
theorem applyFlags_congr {l₁ l₂ : List Item} (h : l₁.length = l₂.length)
    (cur nxt prv : Nat) : applyFlags l₁ cur nxt prv = applyFlags l₂ cur nxt prv := by
  unfold applyFlags
  rw [clearItems_eq_replicate, clearItems_eq_replicate, h]

/-- Mapping everything to `false` produces a replicate. -/
theorem map_false_eq_replicate (l : List Bool) :
    l.map (fun _ => false) = List.replicate l.length false := by
  induction l with
  | nil => rfl
  | cons a as ih =>
      show false :: as.map (fun _ => false) = false :: List.replicate as.length false
      rw [ih]

/-- Fixed sample item used by the concrete instances below. -/
def sampleItem : Item := ⟨false, false, false⟩

/-- A freshly constructed slider over one item. -/
def oneItemSlider : Slider := mkSlider [sampleItem] []

/-- A freshly constructed slider over two items. -/
def twoItemSlider : Slider := mkSlider [sampleItem, sampleItem] []

/-- A freshly constructed slider over three items. -/
def threeItemSlider : Slider := mkSlider [sampleItem, sampleItem, sampleItem] []

/-- C1 counterexample: with `N = 2` items, `goTo 1` from index `0` changes the
index by `-1`, which does not lie in the claimed signed range `(-N/2, N/2]`
(membership expressed fraction-free by doubling: `-2 < 2*v ∧ 2*v ≤ 2`). -/
theorem C1_counterexample :
    (goTo twoItemSlider 1).index - twoItemSlider.index = -1 ∧
    ¬ (-(2 : Int) < 2 * ((goTo twoItemSlider 1).index - twoItemSlider.index) ∧
        2 * ((goTo twoItemSlider 1).index - twoItemSlider.index) ≤ (2 : Int)) := by
  decide

/-- C1 (amended): for `N ≥ 1`, `_normalize` always returns a value in the
half-open range `[-N/2, N/2)` (closed at `-N/2`, open at `N/2`; stated
fraction-free by doubling), and when the rewrap in the final `update` does not
fire, `goTo` changes `index` by exactly that normalized distance. -/
theorem C1_goTo_normalized_distance (s : Slider) (b : Int) (h : 0 < s.items.length)
    (hb : |s.index + normalize s.items.length (b - s.index)|
        ≤ (bound s.items.length : Int)) :
    (-(s.items.length : Int) ≤ 2 * normalize s.items.length (b - s.index) ∧
        2 * normalize s.items.length (b - s.index) < (s.items.length : Int)) ∧
    (goTo s b).index - s.index = normalize s.items.length (b - s.index) := by
  refine ⟨normalize_range s.items.length h (b - s.index), ?_⟩
  have hix : (goTo s b).index = s.index + normalize s.items.length (b - s.index) := by
    show updIndex { s with index := s.index + normalize s.items.length (b - s.index) } = _
    exact updIndex_of_le _ hb
  rw [hix]
  ring

/-- Witness for the amended C1 at the concrete slider with three items. -/
theorem C1_goTo_normalized_distance_witness :
    (-(threeItemSlider.items.length : Int)
          ≤ 2 * normalize threeItemSlider.items.length (2 - threeItemSlider.index) ∧
        2 * normalize threeItemSlider.items.length (2 - threeItemSlider.index)
          < (threeItemSlider.items.length : Int)) ∧
    (goTo threeItemSlider 2).index - threeItemSlider.index
      = normalize threeItemSlider.items.length (2 - threeItemSlider.index) :=
  C1_goTo_normalized_distance threeItemSlider 2 (by decide) (by decide)

/-- C2: `goTo b` changes `index` by a value congruent to `b - index mod N`, so
the resulting index is congruent to `b` modulo `N`. -/
theorem C2_goTo_congruence (s : Slider) (b : Int) (h : 0 < s.items.length) :
    ((goTo s b).index - s.index) % (s.items.length : Int)
        = (b - s.index) % (s.items.length : Int) ∧
    (goTo s b).index % (s.items.length : Int) = b % (s.items.length : Int) := by
  have hgoto : (goTo s b).index % (s.items.length : Int)
      = (s.index + normalize s.items.length (b - s.index)) % (s.items.length : Int) :=
    updIndex_emod { s with index := s.index + normalize s.items.length (b - s.index) } h
  have hd : normalize s.items.length (b - s.index) % (s.items.length : Int)
      = (b - s.index) % (s.items.length : Int) := normalize_emod s.items.length h _
  have h2 : (goTo s b).index % (s.items.length : Int) = b % (s.items.length : Int) := by
    rw [hgoto, Int.add_emod, hd, ← Int.add_emod]
    congr 1
    ring
  refine ⟨?_, h2⟩
  rw [Int.sub_emod, h2, ← Int.sub_emod]

/-- Witness for C2 at the concrete slider with three items and target 7. -/
theorem C2_goTo_congruence_witness :
    ((goTo threeItemSlider 7).index - threeItemSlider.index)
          % (threeItemSlider.items.length : Int)
        = (7 - threeItemSlider.index) % (threeItemSlider.items.length : Int) ∧
    (goTo threeItemSlider 7).index % (threeItemSlider.items.length : Int)
      = 7 % (threeItemSlider.items.length : Int) :=
  C2_goTo_congruence threeItemSlider 7 (by decide)

/-- C7: running `update` twice in a row leaves exactly the same flags on the
items and the same `active` flag on the indicators as running it once. -/
theorem C7_update_idempotent (s : Slider) (h : 0 < s.items.length) :
    (update (update s)).items = (update s).items ∧
    (update (update s)).indicators = (update s).indicators := by
  have hpos : (0 : Int) < s.items.length := by exact_mod_cast h
  have hN : (update s).items.length = s.items.length := update_items_length s
  have hcur : jsMod (update s).index s.items.length = jsMod s.index s.items.length := by
    rw [jsMod_eq_emod _ hpos, jsMod_eq_emod _ hpos, update_index_emod s h]
  have hnxt : jsMod ((update s).index + 1) s.items.length
      = jsMod (s.index + 1) s.items.length := by
    rw [jsMod_eq_emod _ hpos, jsMod_eq_emod _ hpos, ← Int.emod_add_emod,
      update_index_emod s h, Int.emod_add_emod]
  have hprv : jsMod ((update s).index - 1) s.items.length
      = jsMod (s.index - 1) s.items.length := by
    rw [jsMod_eq_emod _ hpos, jsMod_eq_emod _ hpos, Int.sub_emod,
      update_index_emod s h, ← Int.sub_emod]
  constructor
  · show applyFlags (update s).items
        (jsMod (update s).index (update s).items.length).toNat
        (jsMod ((update s).index + 1) (update s).items.length).toNat
        (jsMod ((update s).index - 1) (update s).items.length).toNat
      = (update s).items
    rw [hN, hcur, hnxt, hprv, applyFlags_congr hN]
    rfl
  · show modifyAt ((update s).indicators.map (fun _ => false))
        (jsMod (update s).index (update s).items.length).toNat (fun _ => true)
      = (update s).indicators
    rw [hN, hcur, map_false_eq_replicate, update_indicators_length]
    show modifyAt (List.replicate s.indicators.length false) _ _ = _
    rw [← map_false_eq_replicate s.indicators]
    rfl

/-- Witness for C7 at the concrete slider with one item. -/
theorem C7_update_idempotent_witness :
    (update (update oneItemSlider)).items = (update oneItemSlider).items ∧
    (update (update oneItemSlider)).indicators = (update oneItemSlider).indicators :=
  C7_update_idempotent oneItemSlider (by decide)

/-- C8: on touch end with a recorded start, the swipe distance decides the one
navigation call (`prev` on a rightward drag, `next` on a leftward drag, none
within the threshold of 30), and the tracking state is always cleared. -/
theorem C8_touch_end (s : Slider) (sx : Int) (h : s.touchStartX = some sx)
    (ht : s.swipeThreshold = 30) :
    (30 < s.touchCurrentX - sx →
        handleTouchEnd s = { prev s with touchStartX := none, touchCurrentX := 0 }) ∧
    (s.touchCurrentX - sx < -30 →
        handleTouchEnd s = { next s with touchStartX := none, touchCurrentX := 0 }) ∧
    (|s.touchCurrentX - sx| ≤ 30 →
        handleTouchEnd s = { s with touchStartX := none, touchCurrentX := 0 }) ∧
    (handleTouchEnd s).touchStartX = none ∧
    (handleTouchEnd s).touchCurrentX = 0 := by
  unfold handleTouchEnd
  rw [h]
  dsimp only
  refine ⟨?_, ?_, ?_, ?_, ?_⟩
  · intro hp
    have habs : s.swipeThreshold < |s.touchCurrentX - sx| := by
      rw [ht]
      exact lt_of_lt_of_le hp (le_abs_self _)
    rw [if_pos habs, if_pos (show (0 : Int) < s.touchCurrentX - sx by linarith)]
  · intro hn
    have habs : s.swipeThreshold < |s.touchCurrentX - sx| := by
      rw [ht]
      have h1 : -(s.touchCurrentX - sx) ≤ |s.touchCurrentX - sx| := neg_le_abs _
      linarith
    rw [if_pos habs, if_neg (by linarith : ¬ (0 : Int) < s.touchCurrentX - sx)]
  · intro hle
    rw [if_neg (show ¬ s.swipeThreshold < |s.touchCurrentX - sx| by
      rw [ht]; exact not_lt.mpr hle)]
  · rfl
  · rfl

/-- Concrete touch interaction: touch start at x = 100, then move to x = 50. -/
def touchDemo : Slider := handleTouchMove (handleTouchStart oneItemSlider [100]) [50]

/-- Witness for C8: the recorded swipe from 100 to 50 has delta -50, beyond the
threshold, so touch end makes exactly one `next` call and clears tracking. -/
theorem C8_touch_end_witness :
    handleTouchEnd touchDemo
        = { next touchDemo with touchStartX := none, touchCurrentX := 0 } ∧
    (handleTouchEnd touchDemo).touchStartX = none ∧
    (handleTouchEnd touchDemo).touchCurrentX = 0 := by
  have h := C8_touch_end touchDemo 100 (by decide) (by decide)
  exact ⟨h.2.1 (by decide), h.2.2.2⟩

/-- One concept card: the `expanded` marker class, the natural (scroll) height
of its inner `.variables` content region, and that region's `max-height`
style property (absent until first written). -/
structure Card where
  expanded : Bool
  scrollHeight : Nat
  maxHeight : Option String
deriving DecidableEq

/-- Function `expandCard` from index.js lines 66-76: add the marker class and
publish the content's natural height as a pixel string. -/
def expandCard (c : Card) : Card :=
  { c with expanded := true, maxHeight := some (toString c.scrollHeight ++ "px") }

/-- Function `collapseCard` from index.js lines 84-87. -/
def collapseCard (c : Card) : Card :=
  { c with expanded := false, maxHeight := some "0px" }

/-- Function `toggleCard` from index.js lines 52-58 (identical in the unnamed
variant file). -/
def toggleCard (c : Card) : Card :=
  if c.expanded then collapseCard c else expandCard c

/-- C9: an accepted click expands a collapsed card (setting the max extent to
the content height in pixels) and collapses an expanded one (setting it to
`0px`); two clicks on a collapsed card of height 120 set `120px` then `0px`
and restore the collapsed state. -/
theorem C9_toggle_card (c : Card) :
    (c.expanded = false →
        toggleCard c
          = { c with expanded := true, maxHeight := some (toString c.scrollHeight ++ "px") }) ∧
    (c.expanded = true →
        toggleCard c = { c with expanded := false, maxHeight := some "0px" }) ∧
    (c.expanded = false → c.scrollHeight = 120 →
        (toggleCard c).maxHeight = some "120px" ∧
        (toggleCard (toggleCard c)).maxHeight = some "0px" ∧
        (toggleCard (toggleCard c)).expanded = false) := by
  refine ⟨?_, ?_, ?_⟩
  · intro hc
    simp [toggleCard, expandCard, hc]
  · intro hc
    simp [toggleCard, collapseCard, hc]
  · intro hc h120
    simp [toggleCard, expandCard, collapseCard, hc, h120]
    decide

/-- Witness for C9 at the concrete collapsed card of content height 120. -/
theorem C9_toggle_card_witness :
    (toggleCard ⟨false, 120, none⟩).maxHeight = some "120px" ∧
    (toggleCard (toggleCard ⟨false, 120, none⟩)).maxHeight = some "0px" ∧
    (toggleCard (toggleCard ⟨false, 120, none⟩)).expanded = false :=
  (C9_toggle_card ⟨false, 120, none⟩).2.2 rfl rfl

/-- When the index magnitude exceeds the bound the rewrap collapses it. -/
theorem updIndex_of_gt (s : Slider) (h : (bound s.items.length : Int) < |s.index|) :
    updIndex s = jsMod s.index s.items.length := by
  unfold updIndex
  rw [if_pos h]

/-- Method `next` is `goTo` of the successor, so the normalized distance is that of a
single forward step. -/
theorem next_eq (s : Slider) :
    next s = update { s with index := s.index + normalize s.items.length 1 } := by
  unfold next goTo
  rw [add_sub_cancel_left]

/-- When no rewrap fires, `next` advances the index by the normalized step. -/
theorem next_index_of_le (s : Slider)
    (hb : |s.index + normalize s.items.length 1| ≤ (bound s.items.length : Int)) :
    (next s).index = s.index + normalize s.items.length 1 ∧
    (next s).items.length = s.items.length := by
  rw [next_eq]
  exact ⟨updIndex_of_le _ hb, update_items_length _⟩

/-- A freshly constructed slider starts at index zero. -/
theorem mkSlider_index (items0 : List Item) (inds0 : List Bool) :
    (mkSlider items0 inds0).index = 0 := by
  unfold mkSlider
  rw [update_index_def, updIndex_of_le _ (by simp)]

/-- A freshly constructed slider keeps the item snapshot. -/
theorem mkSlider_items_length (items0 : List Item) (inds0 : List Bool) :
    (mkSlider items0 inds0).items.length = items0.length := by
  unfold mkSlider
  rw [update_items_length]

/-- With at least two items a single forward step normalizes to a unit step
(in one direction or the other). -/
theorem normalize_one_abs (total : Nat) (h : 2 ≤ total) :
    |normalize total 1| = 1 := by
  rcases eq_or_lt_of_le h with heq | hlt
  · rw [← heq]
    decide
  · rw [normalize_one_of_three_le total (by omega)]
    decide

/-- The in-view invariant: every reachable state has exactly one `in-view`
item, located at position `index mod N`. -/
theorem reachable_mask (items0 : List Item) (inds0 : List Bool)
    (hN : 0 < items0.length) {s : Slider} (hr : Reachable items0 inds0 s) :
    s.items.countP (fun it => it.inView) = 1 ∧
    inViewMask s.items
      = oneHot s.items.length ((s.index % (s.items.length : Int)).toNat) := by
  obtain ⟨t, rfl, hlen⟩ := reachable_is_update items0 inds0 hr
  have ht : 0 < t.items.length := by omega
  have hpos : (0 : Int) < t.items.length := by exact_mod_cast ht
  have hmask := inViewMask_update_emod t ht
  constructor
  · rw [countP_inView_mask, hmask]
    have hlt : (t.index % (t.items.length : Int)).toNat < t.items.length := by
      have h1 := Int.emod_nonneg t.index (by omega : (t.items.length : Int) ≠ 0)
      have h2 := Int.emod_lt_of_pos t.index hpos
      omega
    exact oneHot_countP _ _ hlt
  · rw [hmask, update_items_length, update_index_emod t ht]

/-- Reachability is preserved by iterated `next` calls. -/
theorem reachable_iterate_next (items0 : List Item) (inds0 : List Bool) {s : Slider}
    (hr : Reachable items0 inds0 s) (j : Nat) :
    Reachable items0 inds0 (next^[j] s) := by
  induction j with
  | zero => simpa using hr
  | succ k ih =>
      rw [Function.iterate_succ_apply']
      exact Reachable.step_next ih

/-- One `next` call advances the index residue by one. -/
theorem next_index_emod (t : Slider) (h : 0 < t.items.length) :
    (next t).index % (t.items.length : Int) = (t.index + 1) % (t.items.length : Int) := by
  rw [next_eq]
  have hupd := update_index_emod { t with index := t.index + normalize t.items.length 1 } h
  dsimp only at hupd
  rw [hupd, Int.add_emod, normalize_emod _ h, ← Int.add_emod]

/-- Iterated `next` calls advance the index residue linearly and keep the item
snapshot length. -/
theorem iterate_next_emod (t : Slider) (h : 0 < t.items.length) (j : Nat) :
    (next^[j] t).index % (t.items.length : Int)
        = (t.index + j) % (t.items.length : Int) ∧
    (next^[j] t).items.length = t.items.length := by
  induction j with
  | zero => simp
  | succ k ih =>
      rw [Function.iterate_succ_apply']
      have hlen := ih.2
      have h' : 0 < (next^[k] t).items.length := by omega
      have hstep := next_index_emod (next^[k] t) h'
      rw [hlen] at hstep
      constructor
      · rw [hstep, ← Int.emod_add_emod, ih.1, Int.emod_add_emod]
        congr 1
        push_cast
        ring
      · rw [show KNetix.next (next^[k] t) = goTo (next^[k] t) _ from rfl,
          goTo_items_length, hlen]

/-- From a fresh slider with at least two items, `j ≤ bound` calls to `next`
move the index to exactly `j` normalized unit steps, with no rewrap. -/
theorem iterate_next_from_init (items0 : List Item) (inds0 : List Bool)
    (h2 : 2 ≤ items0.length) (j : Nat) (hj : j ≤ bound items0.length) :
    (next^[j] (mkSlider items0 inds0)).index
        = (j : Int) * normalize items0.length 1 ∧
    (next^[j] (mkSlider items0 inds0)).items.length = items0.length := by
  induction j with
  | zero =>
      constructor
      · rw [Function.iterate_zero_apply, mkSlider_index]
        simp
      · rw [Function.iterate_zero_apply, mkSlider_items_length]
  | succ k ih =>
      obtain ⟨hidx, hlen⟩ := ih (by omega)
      rw [Function.iterate_succ_apply']
      have hb : |(next^[k] (mkSlider items0 inds0)).index
            + normalize (next^[k] (mkSlider items0 inds0)).items.length 1|
          ≤ (bound (next^[k] (mkSlider items0 inds0)).items.length : Int) := by
        rw [hlen, hidx]
        have hstep : (k : Int) * normalize items0.length 1 + normalize items0.length 1
            = ((k + 1 : Nat) : Int) * normalize items0.length 1 := by
          push_cast
          ring
        rw [hstep, abs_mul, normalize_one_abs items0.length h2, mul_one, Nat.abs_cast]
        exact_mod_cast hj
      obtain ⟨h1, hl⟩ := next_index_of_le _ hb
      constructor
      · rw [h1, hlen, hidx]
        push_cast
        ring
      · rw [hl, hlen]

/-- From a fresh slider with at least three items the normalized step is `+1`,
so `j` `next` calls add exactly `j` as long as no rewrap can fire. -/
theorem iterate_next_linear (s : Slider) (h3 : 3 ≤ s.items.length) (j : Nat)
    (hj : |s.index| + (j : Int) ≤ (bound s.items.length : Int)) :
    (next^[j] s).index = s.index + (j : Int) ∧
    (next^[j] s).items.length = s.items.length := by
  induction j with
  | zero => simp
  | succ k ih =>
      have hk : |s.index| + (k : Int) ≤ (bound s.items.length : Int) := by
        push_cast at hj
        linarith
      obtain ⟨hidx, hlen⟩ := ih hk
      rw [Function.iterate_succ_apply']
      have hδ : normalize (next^[k] s).items.length 1 = 1 := by
        rw [hlen]
        exact normalize_one_of_three_le _ h3
      have hb : |(next^[k] s).index + normalize (next^[k] s).items.length 1|
          ≤ (bound (next^[k] s).items.length : Int) := by
        rw [hδ, hidx, hlen]
        have htri : |s.index + (k : Int) + 1| ≤ |s.index| + ((k : Int) + 1) := by
          calc |s.index + (k : Int) + 1|
              ≤ |s.index| + |(k : Int) + 1| := by
                rw [add_assoc]
                exact abs_add _ _
            _ = |s.index| + ((k : Int) + 1) := by
                rw [abs_of_nonneg (show (0 : Int) ≤ (k : Int) + 1 by positivity)]
        push_cast at hj
        linarith
      obtain ⟨h1, hl⟩ := next_index_of_le _ hb
      constructor
      · rw [h1, hδ, hidx]
        push_cast
        ring
      · rw [hl, hlen]

/-- C3: after construction and any sequence of `next`/`prev`/`goTo`, exactly
one item carries the `in-view` flag, and it sits at position `index mod N`. -/
theorem C3_in_view_invariant (items0 : List Item) (inds0 : List Bool)
    (hN : 0 < items0.length) {s : Slider} (hr : Reachable items0 inds0 s) :
    s.items.countP (fun it => it.inView) = 1 ∧
    inViewMask s.items
      = oneHot s.items.length ((s.index % (s.items.length : Int)).toNat) :=
  reachable_mask items0 inds0 hN hr

/-- Witness for C3 at the freshly constructed one-item slider. -/
theorem C3_in_view_invariant_witness :
    oneItemSlider.items.countP (fun it => it.inView) = 1 ∧
    inViewMask oneItemSlider.items
      = oneHot oneItemSlider.items.length
          ((oneItemSlider.index % (oneItemSlider.items.length : Int)).toNat) :=
  C3_in_view_invariant [sampleItem] [] (by decide) Reachable.init

/-- C10: every public operation ends in `update`, so every reachable state
keeps the raw index magnitude within `N * ceil(100/N)`. -/
theorem C10_index_bound_invariant (items0 : List Item) (inds0 : List Bool)
    (hN : 0 < items0.length) {s : Slider} (hr : Reachable items0 inds0 s) :
    |s.index| ≤ (bound items0.length : Int) := by
  obtain ⟨t, rfl, hlen⟩ := reachable_is_update items0 inds0 hr
  have ht : 0 < t.items.length := by omega
  have hb := updIndex_abs_le t ht
  rw [hlen] at hb
  rw [update_index_def]
  exact hb

/-- Witness for C10 at the freshly constructed one-item slider. -/
theorem C10_index_bound_invariant_witness :
    |oneItemSlider.index| ≤ (bound [sampleItem].length : Int) :=
  C10_index_bound_invariant [sampleItem] [] (by decide) Reachable.init

/-- C5 counterexample: with `N = 1` item, one `next()` call leaves the raw
index unchanged, so the index does not increase by `N`. -/
theorem C5_counterexample :
    (next oneItemSlider).index - oneItemSlider.index = 0 ∧
    (next oneItemSlider).index - oneItemSlider.index ≠ 1 := by
  decide

/-- C5 (amended): from any reachable state, `N` calls to `next()` return the
`in-view` flag assignment to exactly what it was; and when `N ≥ 3` and the
whole walk stays within the rewrap bound, the raw index increases by exactly
`N` (for `N = 1` the index does not move at all, and for `N = 2` each step
normalizes to `-1`, so the raw index decreases). -/
theorem C5_next_cycle (items0 : List Item) (inds0 : List Bool)
    (hN : 0 < items0.length) {s : Slider} (hr : Reachable items0 inds0 s) :
    inViewMask (next^[items0.length] s).items = inViewMask s.items ∧
    (3 ≤ items0.length →
      |s.index| + (items0.length : Int) ≤ (bound items0.length : Int) →
      (next^[items0.length] s).index = s.index + (items0.length : Int)) := by
  have hsl : s.items.length = items0.length := reachable_items_length items0 inds0 hr
  have hs0 : 0 < s.items.length := by omega
  constructor
  · have hrN := reachable_iterate_next items0 inds0 hr items0.length
    have hm1 := (reachable_mask items0 inds0 hN hr).2
    have hm2 := (reachable_mask items0 inds0 hN hrN).2
    have hiter := iterate_next_emod s hs0 items0.length
    have hlenN : (next^[items0.length] s).items.length = s.items.length := hiter.2
    rw [hm1, hm2, hlenN, hsl]
    have hres : (next^[items0.length] s).index % (items0.length : Int)
        = s.index % (items0.length : Int) := by
      have := hiter.1
      rw [hsl] at this
      rw [this, Int.add_emod_self]
    rw [hres]
  · intro h3 hroom
    rw [← hsl] at h3 hroom ⊢
    exact (iterate_next_linear s h3 s.items.length hroom).1

/-- Witness for the amended C5 at the fresh three-item slider. -/
theorem C5_next_cycle_witness :
    inViewMask (next^[3] threeItemSlider).items = inViewMask threeItemSlider.items ∧
    (3 ≤ 3 →
      |threeItemSlider.index| + (3 : Int) ≤ (bound 3 : Int) →
      (next^[3] threeItemSlider).index = threeItemSlider.index + (3 : Int)) :=
  C5_next_cycle [sampleItem, sampleItem, sampleItem] [] (by decide) Reachable.init

/-- C4: whenever `update` runs with `|index|` beyond `N * ceil(100/N)` it
replaces the index by `index mod N`, a value in `[0, N)`, and the `in-view`
item is still the one at that same position; and driving the index past the
bound through repeated `next()` calls (possible whenever `N ≥ 2`) makes the
`(bound+1)`-st call collapse the index in exactly this way. -/
theorem C4_rewrap_policy :
    (∀ s : Slider, 0 < s.items.length →
        (bound s.items.length : Int) < |s.index| →
        (update s).index = s.index % (s.items.length : Int) ∧
        0 ≤ (update s).index ∧ (update s).index < (s.items.length : Int) ∧
        inViewMask (update s).items = oneHot s.items.length (update s).index.toNat) ∧
    (∀ (items0 : List Item) (inds0 : List Bool), 2 ≤ items0.length →
        (∀ j : Nat, j ≤ bound items0.length →
            (next^[j] (mkSlider items0 inds0)).index
              = (j : Int) * normalize items0.length 1) ∧
        (bound items0.length : Int)
            < |(next^[bound items0.length] (mkSlider items0 inds0)).index
                + normalize items0.length 1| ∧
        (next^[bound items0.length + 1] (mkSlider items0 inds0)).index
          = (((bound items0.length : Int) + 1) * normalize items0.length 1)
              % (items0.length : Int) ∧
        0 ≤ (next^[bound items0.length + 1] (mkSlider items0 inds0)).index ∧
        (next^[bound items0.length + 1] (mkSlider items0 inds0)).index
          < (items0.length : Int)) := by
  constructor
  · intro s h hgt
    have hpos : (0 : Int) < s.items.length := by exact_mod_cast h
    have hupd : (update s).index = s.index % (s.items.length : Int) := by
      rw [update_index_def, updIndex_of_gt s hgt, jsMod_eq_emod _ hpos]
    refine ⟨hupd, ?_, ?_, ?_⟩
    · rw [hupd]
      exact Int.emod_nonneg _ (by omega)
    · rw [hupd]
      exact Int.emod_lt_of_pos _ hpos
    · rw [inViewMask_update_emod s h, hupd]
  · intro items0 inds0 h2
    have hN : 0 < items0.length := by omega
    have hpos : (0 : Int) < items0.length := by exact_mod_cast hN
    obtain ⟨hidxB, hlenB⟩ :=
      iterate_next_from_init items0 inds0 h2 (bound items0.length) le_rfl
    have habs : |(next^[bound items0.length] (mkSlider items0 inds0)).index
        + normalize items0.length 1| = (bound items0.length : Int) + 1 := by
      rw [hidxB]
      have hstep : (bound items0.length : Int) * normalize items0.length 1
            + normalize items0.length 1
          = ((bound items0.length + 1 : Nat) : Int) * normalize items0.length 1 := by
        push_cast
        ring
      rw [hstep, abs_mul, normalize_one_abs items0.length h2, mul_one, Nat.abs_cast]
      push_cast
      ring
    have hcollapse :
        (next^[bound items0.length + 1] (mkSlider items0 inds0)).index
          = (((bound items0.length : Int) + 1) * normalize items0.length 1)
              % (items0.length : Int) := by
      rw [Function.iterate_succ_apply', next_eq, update_index_def]
      have ht1 : ({ next^[bound items0.length] (mkSlider items0 inds0) with
            index := (next^[bound items0.length] (mkSlider items0 inds0)).index
              + normalize (next^[bound items0.length] (mkSlider items0 inds0)).items.length 1 }
            : Slider).items.length = items0.length := hlenB
      have ht2 : ({ next^[bound items0.length] (mkSlider items0 inds0) with
            index := (next^[bound items0.length] (mkSlider items0 inds0)).index
              + normalize (next^[bound items0.length] (mkSlider items0 inds0)).items.length 1 }
            : Slider).index
          = ((bound items0.length : Int) + 1) * normalize items0.length 1 := by
        dsimp only
        rw [hlenB, hidxB]
        ring
      have hgt' : (bound ({ next^[bound items0.length] (mkSlider items0 inds0) with
            index := (next^[bound items0.length] (mkSlider items0 inds0)).index
              + normalize (next^[bound items0.length] (mkSlider items0 inds0)).items.length 1 }
            : Slider).items.length : Int)
          < |({ next^[bound items0.length] (mkSlider items0 inds0) with
            index := (next^[bound items0.length] (mkSlider items0 inds0)).index
              + normalize (next^[bound items0.length] (mkSlider items0 inds0)).items.length 1 }
            : Slider).index| := by
        rw [ht2, ht1, abs_mul, normalize_one_abs items0.length h2, mul_one,
          abs_of_nonneg (show (0 : Int) ≤ (bound items0.length : Int) + 1 by positivity)]
        omega
      rw [updIndex_of_gt _ hgt', jsMod_eq_emod _ (by rw [ht1]; exact hpos), ht2, ht1]
    refine ⟨fun j hj => (iterate_next_from_init items0 inds0 h2 j hj).1, ?_, hcollapse, ?_, ?_⟩
    · rw [habs]
      omega
    · rw [hcollapse]
      exact Int.emod_nonneg _ (by omega)
    · rw [hcollapse]
      exact Int.emod_lt_of_pos _ hpos

/-- A two-item slider state whose raw index has drifted past the bound. -/
def demoFar : Slider :=
  { items := [sampleItem, sampleItem], indicators := [], index := 101,
    styleViewIndex := "", touchStartX := none, touchCurrentX := 0, swipeThreshold := 30 }

/-- Witness for C4: a far-out index collapses on `update`, and the 101st
`next()` call on a fresh two-item slider triggers the collapse. -/
theorem C4_rewrap_policy_witness :
    ((update demoFar).index = (101 : Int) % (2 : Int) ∧
      0 ≤ (update demoFar).index ∧ (update demoFar).index < (2 : Int) ∧
      inViewMask (update demoFar).items = oneHot 2 (update demoFar).index.toNat) ∧
    (next^[101] twoItemSlider).index
      = (((100 : Int) + 1) * normalize 2 1) % (2 : Int) :=
  ⟨C4_rewrap_policy.1 demoFar (by decide) (by decide),
    (C4_rewrap_policy.2 [sampleItem, sampleItem] [] (by decide)).2.2.1⟩

/-- Abstract DOM seen by the `Slider3D` constructor: selector resolution for
the root, plus the snapshots the constructor collects under a root element
(elements are identified by opaque handles). -/
structure Dom where
  query : String → Option Nat
  itemsOf : Nat → List Item
  indicatorsOf : Nat → List Bool
  hasNextBtn : Nat → Bool
  hasPrevBtn : Nat → Bool

/-- Argument of the `Slider3D` constructor: a selector string, a direct
element reference, or anything else (the invalid case). -/
inductive RootArg where
  | selector (sel : String)
  | element (el : Nat)
  | invalid

/-- Listener registrations performed by `_bindEvents` (lines 65-81): optional
prev/next button clicks, one click listener per indicator, the document-level
key listeners and the four touch listeners on the root. -/
def bindEvents (dom : Dom) (root : Nat) : List String :=
  (if dom.hasNextBtn root then ["click-next"] else []) ++
  (if dom.hasPrevBtn root then ["click-prev"] else []) ++
  (dom.indicatorsOf root).map (fun _ => "click-indicator") ++
  ["keydown", "keyup", "touchstart", "touchmove", "touchend", "touchcancel"]

/-- Slider state assembled by the constructor body (lines 29-58) once the root
element has been resolved, including the initial `update` call. -/
def initSlider (dom : Dom) (root : Nat) : Slider :=
  update
    { items := dom.itemsOf root
      indicators := dom.indicatorsOf root
      index := 0
      styleViewIndex := ""
      touchStartX := none
      touchCurrentX := 0
      swipeThreshold := 30 }

/-- The `Slider3D` constructor, lines 18-59.  `page` is the list of listener
registrations existing before the call; the constructor throws before touching
any state when the root cannot be resolved, and otherwise returns the
instance together with the listeners added by `_bindEvents`. -/
def construct (dom : Dom) (arg : RootArg) (page : List String) :
    Except String Slider × List String :=
  match arg with
  | .selector sel =>
      match dom.query sel with
      | none => (.error ("No element matches selector: \"" ++ sel ++ "\""), page)
      | some el => (.ok (initSlider dom el), page ++ bindEvents dom el)
  | .element el => (.ok (initSlider dom el), page ++ bindEvents dom el)
  | .invalid => (.error "Slider3D requires a selector string or an HTMLElement", page)

/-- C6: constructing with a selector matching no element, or with an argument
that is neither a selector string nor an element reference, returns an error,
registers no listeners, and creates no slider state. -/
theorem C6_construction_failure :
    (∀ (dom : Dom) (sel : String) (page : List String),
        dom.query sel = none →
        construct dom (RootArg.selector sel) page
          = (Except.error ("No element matches selector: \"" ++ sel ++ "\""), page)) ∧
    (∀ (dom : Dom) (page : List String),
        construct dom RootArg.invalid page
          = (Except.error "Slider3D requires a selector string or an HTMLElement", page)) := by
  constructor
  · intro dom sel page hq
    unfold construct
    dsimp only
    rw [hq]
  · intro dom page
    rfl

/-- A document in which no selector resolves. -/
def emptyDom : Dom :=
  { query := fun _ => none
    itemsOf := fun _ => []
    indicatorsOf := fun _ => []
    hasNextBtn := fun _ => false
    hasPrevBtn := fun _ => false }

/-- Witness for C6 on the empty document. -/
theorem C6_construction_failure_witness :
    construct emptyDom (RootArg.selector "missing") []
        = (Except.error ("No element matches selector: \"" ++ "missing" ++ "\""), []) ∧
    construct emptyDom RootArg.invalid []
        = (Except.error "Slider3D requires a selector string or an HTMLElement", []) :=
  ⟨C6_construction_failure.1 emptyDom "missing" [] rfl,
    C6_construction_failure.2 emptyDom []⟩

end KNetix
